import Mathlib

/-!
Shallow embedding of the weekly_stockprice service core
(app/domain/service/stockprice_service.py,
app/domain/service/weekly_db_service.py,
app/domain/service/stockprice_db_service.py,
app/domain/repository/stockprice_repository.py,
app/domain/controller/stockprice_controller.py,
app/api/n8n_stockprice_router.py, app/config/companies.py).

Modelling conventions:
* Calendar dates are integers counting days since 1970-01-01, so Python
  datetime subtraction and comparison become integer arithmetic, and the
  strftime / strptime round trip becomes the identity on day numbers.
  1970-01-01 was a Thursday, so Python weekday() (Monday = 0) is
  (d + 3) mod 7.
* Python int is Int; the change-rate arithmetic, which Python performs in
  binary floating point, is modelled in exact rational arithmetic with
  round-half-to-even, the documented behaviour of Python round.
* Database tables are lists of rows; SQLAlchemy sessions run with
  autoflush, so a pending insert is visible to later queries of the same
  batch and an insert simply appends to the list.
* Exceptions are modelled with Except; a provider-side exception that the
  source catches is injected through an explicit failure oracle in
  ProviderEnv.
-/

/-- Daily bar produced by the daily-series provider (StockDataPoint in
stockprice_schema.py); the date string is modelled as a day number. -/
structure StockDataPoint where
  date : Int
  close : Int
  high : Int
  low : Int
  volume : Int
deriving Repr, DecidableEq

/-- Python weekday() of a day number (Monday = 0 ... Sunday = 6). -/
def pyWeekday (d : Int) : Int := (d + 3) % 7

/-- Gregorian date (year, month, day) of a day number; the standard
civil-from-days algorithm, modelling what strftime prints. -/
def civilFromDays (zz : Int) : Int × Int × Int :=
  let z := zz + 719468
  let era := Int.fdiv z 146097
  let doe := z - era * 146097
  let yoe := Int.fdiv (doe - Int.fdiv doe 1460 + Int.fdiv doe 36524 - Int.fdiv doe 146096) 365
  let y := yoe + era * 400
  let doy := doe - (365 * yoe + Int.fdiv yoe 4 - Int.fdiv yoe 100)
  let mp := Int.fdiv (5 * doy + 2) 153
  let d := doy - Int.fdiv (153 * mp + 2) 5 + 1
  let m := mp + (if mp < 10 then 3 else -9)
  (y + (if m ≤ 2 then 1 else 0), m, d)

/-- Day number of a Gregorian date; inverse of civilFromDays, modelling
strptime. -/
def daysFromCivil (y m d : Int) : Int :=
  let y1 := if m ≤ 2 then y - 1 else y
  let era := Int.fdiv y1 400
  let yoe := y1 - era * 400
  let mp := (m + 9) % 12
  let doy := Int.fdiv (153 * mp + 2) 5 + d - 1
  let doe := yoe * 365 + Int.fdiv yoe 4 - Int.fdiv yoe 100 + doy
  era * 146097 + doe - 719468

/-- Zero-pad a number to a fixed width, as strftime does. -/
def padNum (width : Nat) (n : Nat) : String :=
  let s := toString n
  (List.replicate (width - s.length) '0').asString ++ s

/-- strftime with format %Y.%m.%d on a day number. -/
def formatDay (z : Int) : String :=
  let c := civilFromDays z
  padNum 4 c.1.toNat ++ "." ++ padNum 2 c.2.1.toNat ++ "." ++ padNum 2 c.2.2.toNat

/-- strftime with format %Y-%m-%d on a day number. -/
def formatDayDash (z : Int) : String :=
  let c := civilFromDays z
  padNum 4 c.1.toNat ++ "-" ++ padNum 2 c.2.1.toNat ++ "-" ++ padNum 2 c.2.2.toNat

/-- StockPriceService._get_friday_dates, at the day-number level: the pair
(this Friday, prior Friday) computed from the current day. -/
def get_friday_days (today : Int) : Int × Int :=
  let wd := pyWeekday today
  let daysUntilFriday := (4 - wd) % 7
  let thisFriday :=
    if daysUntilFriday = 0 ∧ wd = 4 then today
    else if daysUntilFriday = 0 then today - (wd + 1)
    else if 4 < wd then today - (wd - 4)
    else today - (wd + 3)
  (thisFriday, thisFriday - 7)

/-- StockPriceService._get_friday_dates: the two anchor days rendered in
the %Y.%m.%d display format. -/
def get_friday_dates (today : Int) : String × String :=
  (formatDay (get_friday_days today).1, formatDay (get_friday_days today).2)

/-- One step of the nearest-prior-trading-day scan in
StockPriceService._find_closest_trading_day: keep the candidate whose
distance to the target is smallest, a later bar winning only strictly. -/
def fctdStep (targetDate : Int) (acc : Option StockDataPoint) (d : StockDataPoint) :
    Option StockDataPoint :=
  if d.date ≤ targetDate then
    match acc with
    | none => some d
    | some c => if targetDate - d.date < targetDate - c.date then some d else some c
  else acc

/-- StockPriceService._find_closest_trading_day: an exact date match wins,
otherwise the scan keeps the bar at or before the target with the minimum
date distance; none when no bar is at or before the target. -/
def find_closest_trading_day (targetDate : Int) (dailyData : List StockDataPoint) :
    Option StockDataPoint :=
  match dailyData.find? (fun d => d.date == targetDate) with
  | some d => some d
  | none => dailyData.foldl (fctdStep targetDate) none

/-- Floor of a rational number, computed on the normalised fraction. -/
def ratFloor (q : ℚ) : Int := Int.fdiv q.num q.den

/-- Round a rational to the nearest integer, ties to even: the documented
behaviour of Python round. -/
def roundHalfEven (q : ℚ) : Int :=
  let f := ratFloor q
  let r := q - (f : ℚ)
  if r < 1 / 2 then f
  else if 1 / 2 < r then f + 1
  else if f % 2 = 0 then f else f + 1

/-- Python round(x, 2). -/
def pyRound2 (q : ℚ) : ℚ := (roundHalfEven (q * 100) : ℚ) / 100

/-- The weekly statistics dictionary built by
StockPriceService._calculate_weekly_stats_by_date. -/
structure WeeklyStats where
  today : Int
  lastWeek : Int
  changeRate : ℚ
  weekHigh : Int
  weekLow : Int
deriving Repr, DecidableEq

/-- StockPriceService._calculate_weekly_stats_by_date: resolve the two
anchor bars, compute the window of bars at most 4 days before the
this-Friday anchor and not after it, aggregate high/low over it (falling
back to the anchor close when empty), and compute the rounded change rate
with a division-by-zero guard. none models the empty dictionary. -/
def calculate_weekly_stats_by_date (dailyData : List StockDataPoint)
    (thisFriday lastFriday : Int) : Option WeeklyStats :=
  if dailyData.isEmpty then none
  else
    match find_closest_trading_day thisFriday dailyData,
          find_closest_trading_day lastFriday dailyData with
    | some thisFridayData, some lastFridayData =>
      let today := thisFridayData.close
      let lastWeek := lastFridayData.close
      let thisWeekData :=
        dailyData.filter (fun d => decide (thisFriday - d.date ≤ 4 ∧ d.date ≤ thisFriday))
      let weekHigh :=
        match thisWeekData with
        | [] => today
        | h :: t => t.foldl (fun m d => max m d.high) h.high
      let weekLow :=
        match thisWeekData with
        | [] => today
        | h :: t => t.foldl (fun m d => min m d.low) h.low
      let changeRate :=
        if lastWeek ≠ 0 then (((today : ℚ) - (lastWeek : ℚ)) / (lastWeek : ℚ)) * 100 else 0
      some { today := today, lastWeek := lastWeek, changeRate := pyRound2 changeRate,
             weekHigh := weekHigh, weekLow := weekLow }
    | _, _ => none

/-- GAME_COMPANIES from app/config/companies.py: stock code to company
name, in source insertion order. -/
def GAME_COMPANIES : List (String × String) :=
  [("035420", "네이버"), ("035720", "카카오"), ("259960", "크래프톤"),
   ("036570", "엔씨소프트"), ("251270", "넷마블"), ("263750", "펄어비스"),
   ("293490", "카카오게임즈"), ("225570", "넥슨게임즈"), ("112040", "위메이드"),
   ("095660", "네오위즈"), ("181710", "NHN"), ("078340", "컴투스"),
   ("192080", "더블유게임즈"), ("145720", "더블다운인터액티브"), ("089500", "그라비티"),
   ("194480", "데브시스터즈"), ("069080", "웹젠"), ("217270", "넵튠"),
   ("101730", "위메이드맥스"), ("063080", "컴투스홀딩스"), ("067000", "조이시티"),
   ("950190", "미투젠"), ("123420", "위메이드플레이"), ("201490", "미투온"),
   ("348030", "모비릭스"), ("052790", "액토즈소프트"), ("331520", "밸로프"),
   ("205500", "넥써쓰"), ("462870", "시프트업"),
   ("00700", "Tencent"), ("09999", "Netease"), ("09888", "Baidu"),
   ("BIDU", "Baidu"), ("03888", "Kingsoft"), ("002624", "Perfect World"),
   ("00777", "Netdragon"), ("SOHU", "Sohu"), ("CMCM", "Cheetah Mobile"),
   ("7974", "Nintendo"), ("3659", "Nexon"), ("7832", "Bandai-Namco"),
   ("9697", "Capcom"), ("9766", "KONAMI"), ("9684", "Square-Enix"),
   ("6460", "Sega"), ("3765", "Gungho"), ("2432", "DeNA"), ("3632", "Gree"),
   ("3668", "COLOPL"), ("3656", "Klab"),
   ("EA", "Electronic-Arts"), ("RBLX", "Roblox"), ("TTWO", "Take-Two"),
   ("PLTK", "Playtika"), ("SCPL", "Sciplay"),
   ("CDR", "CD Projekt SA"), ("UBI", "Ubisoft")]

/-- The registry keys, in order (the codes the batch fans out over). -/
def gameCompanyCodes : List String := GAME_COMPANIES.map Prod.fst

/-- Python substring containment a in b, on character lists. -/
def pyInStr (a b : String) : Bool :=
  b.toList.tails.any (fun t => a.toList.isPrefixOf t)

/-- Python truthiness of an optional string (None and the empty string are
falsy). -/
def pyTruthyStr : Option String → Bool
  | none => false
  | some s => !(s == "")

/-- Python truthiness of an optional integer (None and 0 are falsy). -/
def pyTruthyInt : Option Int → Bool
  | none => false
  | some n => !(n == 0)

/-- StockPriceService._get_stock_code: an exact registry key is returned
unchanged; otherwise the first company whose name contains the symbol or
is contained in it; otherwise the fixed default code 259960. -/
def get_stock_code (symbol : String) : String :=
  if GAME_COMPANIES.any (fun p => p.1 == symbol) then symbol
  else
    match GAME_COMPANIES.find? (fun p => pyInStr symbol p.2 || pyInStr p.2 symbol) with
    | some p => p.1
    | none => "259960"

/-- COMPANY_INFO.get(code, ...).get(name, fallback): the registry name of a
code, with the given fallback for unknown codes. -/
def companyInfoName (code fallback : String) : String :=
  match GAME_COMPANIES.find? (fun p => p.1 == code) with
  | some p => p.2
  | none => fallback

/-- WeeklyStockPriceResponse from stockprice_schema.py. -/
structure WeeklyStockPriceResponse where
  symbol : String
  companyName : String
  marketCap : Option Int := none
  today : Option Int := none
  lastWeek : Option Int := none
  changeRate : Option ℚ := none
  weekHigh : Option Int := none
  weekLow : Option Int := none
  error : Option String := none
  thisFridayDate : Option String := none
  lastFridayDate : Option String := none
deriving Repr, DecidableEq

/-- External collaborators of one fetch, and the clock: the market-cap
provider and daily-series provider results per stock code (both absorb
their own exceptions in the source, returning None / an empty list), the
current day for _get_friday_dates, and a failure oracle injecting an
exception into the body of fetch_weekly_stock_data for a code (none means
the body runs normally). -/
structure ProviderEnv where
  today : Int
  marketCap : String → Option Int
  dailyData : String → List StockDataPoint
  failure : String → Option String

/-- StockPriceService.fetch_weekly_stock_data: resolve the code, compute
the Friday anchors, collect market cap and daily bars, and assemble the
response; an empty daily series or an injected exception yields a response
with the error field set and all numeric fields None. -/
def fetch_weekly_stock_data (env : ProviderEnv) (symbol : String) : WeeklyStockPriceResponse :=
  let stockCode := get_stock_code symbol
  let companyName := companyInfoName stockCode symbol
  let fridays := get_friday_days env.today
  let thisFridayStr := formatDay fridays.1
  let lastFridayStr := formatDay fridays.2
  match env.failure stockCode with
  | some msg =>
    { symbol := stockCode, companyName := companyName,
      error := some ("데이터 수집 실패: " ++ msg),
      thisFridayDate := some thisFridayStr, lastFridayDate := some lastFridayStr }
  | none =>
    let marketCap := env.marketCap stockCode
    let dailyData := env.dailyData stockCode
    if dailyData.isEmpty then
      { symbol := stockCode, companyName := companyName,
        error := some "일별시세 데이터를 가져올 수 없습니다",
        thisFridayDate := some thisFridayStr, lastFridayDate := some lastFridayStr }
    else
      let weeklyStats := calculate_weekly_stats_by_date dailyData fridays.1 fridays.2
      { symbol := stockCode, companyName := companyName, marketCap := marketCap,
        today := weeklyStats.map (fun s => s.today),
        lastWeek := weeklyStats.map (fun s => s.lastWeek),
        changeRate := weeklyStats.map (fun s => s.changeRate),
        weekHigh := weeklyStats.map (fun s => s.weekHigh),
        weekLow := weeklyStats.map (fun s => s.weekLow),
        thisFridayDate := some thisFridayStr, lastFridayDate := some lastFridayStr }

/-- StockPriceService.fetch_all_weekly_stock_data: one fetch per registry
code, gathered in order; every task returns a response, never an
exception. -/
def fetch_all_weekly_stock_data (env : ProviderEnv) : List WeeklyStockPriceResponse :=
  gameCompanyCodes.map (fetch_weekly_stock_data env)

/-- WeeklyStockPriceCreate from stockprice_schema.py. -/
structure WeeklyStockPriceCreate where
  symbol : String
  market_cap : Option Int := none
  today : Option Int := none
  last_week : Option Int := none
  change_rate : Option ℚ := none
  week_high : Option Int := none
  week_low : Option Int := none
  error : Option String := none
  this_friday_date : Option String := none
  last_friday_date : Option String := none
  data_source : Option String := some "naver_finance"
deriving Repr, DecidableEq

/-- A row of the weekly_stock_prices table (StockPriceModel). -/
structure StockRow where
  id : Nat
  symbol : String
  market_cap : Option Int := none
  today : Option Int := none
  last_week : Option Int := none
  change_rate : Option ℚ := none
  week_high : Option Int := none
  week_low : Option Int := none
  error : Option String := none
  this_friday_date : Option String := none
  last_friday_date : Option String := none
  data_source : Option String := none
  created_at : Int := 0
  updated_at : Int := 0
deriving Repr, DecidableEq

/-- The methods defined on StockPriceRepository in
stockprice_repository.py; the attribute table Python getattr consults. -/
def stockPriceRepositoryMethods : List String :=
  ["create", "get_by_id", "get_all", "get_by_symbol", "get_all_latest_prices",
   "get_by_symbols", "get_by_change_rate_range", "get_top_gainers",
   "get_top_losers", "get_market_statistics", "count_total", "update",
   "bulk_create", "delete"]

/-- Build the response the DB service returns for a stored row. -/
def stockRowToResponse (stock : StockRow) : WeeklyStockPriceResponse :=
  { symbol := stock.symbol, companyName := stock.symbol,
    marketCap := stock.market_cap, today := stock.today,
    lastWeek := stock.last_week, changeRate := stock.change_rate,
    weekHigh := stock.week_high, weekLow := stock.week_low,
    error := stock.error, thisFridayDate := stock.this_friday_date,
    lastFridayDate := stock.last_friday_date }

/-- StockPriceDbService.upsert_by_symbol: the service delegates to
self.repository.upsert_by_symbol, but StockPriceRepository defines no
method of that name, so the attribute lookup raises AttributeError on
every call; the branch on the method table models that lookup. -/
def upsert_by_symbol (st : List StockRow) (stockprice_data : WeeklyStockPriceCreate) :
    Except String (List StockRow × WeeklyStockPriceResponse) :=
  if hm : "upsert_by_symbol" ∈ stockPriceRepositoryMethods then
    absurd hm (by decide)
  else
    .error "AttributeError: StockPriceRepository has no attribute upsert_by_symbol"

/-- StockPriceRepository.bulk_create: always insert fresh rows, one per
create payload, in order; ids continue from the table length. -/
def bulk_create (st : List StockRow) (stockprices_data : List WeeklyStockPriceCreate)
    (now : Int) : List StockRow × List StockRow :=
  let stockprices := stockprices_data.enum.map (fun p =>
    { id := st.length + p.1 + 1, symbol := p.2.symbol,
      market_cap := p.2.market_cap, today := p.2.today,
      last_week := p.2.last_week, change_rate := p.2.change_rate,
      week_high := p.2.week_high, week_low := p.2.week_low,
      error := p.2.error, this_friday_date := p.2.this_friday_date,
      last_friday_date := p.2.last_friday_date, data_source := p.2.data_source,
      created_at := now, updated_at := now : StockRow })
  (st ++ stockprices, stockprices)

/-- The conversion the controller applies before saving: code replaced by
registry name, data_source fixed to naver_finance
(StockPriceController.get_all_weekly_stock_data). -/
def responseToCreate (s : WeeklyStockPriceResponse) : WeeklyStockPriceCreate :=
  { symbol := companyInfoName s.symbol s.symbol, market_cap := s.marketCap,
    today := s.today, last_week := s.lastWeek, change_rate := s.changeRate,
    week_high := s.weekHigh, week_low := s.weekLow, error := s.error,
    this_friday_date := s.thisFridayDate, last_friday_date := s.lastFridayDate,
    data_source := some "naver_finance" }

/-- StockPriceController.get_all_weekly_stock_data: collect every
company, bulk-save the error-free responses, and return the saved rows
when that save happened and succeeded, the raw collection otherwise.
bulkOk models whether the weekly_stock_prices store write succeeds. -/
def get_all_weekly_stock_data (env : ProviderEnv) (bulkOk : Bool)
    (st : List StockRow) : List WeeklyStockPriceResponse × List StockRow :=
  let allStockData := fetch_all_weekly_stock_data env
  if allStockData.isEmpty then (allStockData, st)
  else
    let stockCreates :=
      (allStockData.filter (fun s => !pyTruthyStr s.error)).map responseToCreate
    if stockCreates.isEmpty then (allStockData, st)
    else if bulkOk then
      let (st1, saved) := bulk_create st stockCreates env.today
      (saved.map stockRowToResponse, st1)
    else (allStockData, st)

/-- Structural rendering of the content text the n8n router builds for a
fact: the error branch keeps the message, the stats branch keeps the
values the f-string interpolates (change rate, Friday close, the market
cap when truthy, and the high/low pair when both are truthy). -/
inductive ItemContent where
  | errText (msg : String)
  | statsText (changeRate : ℚ) (today : Int) (marketCap : Option Int)
      (highLow : Option (Int × Int))
deriving Repr, DecidableEq

/-- The metadata dict attached to each weekly item by the n8n router.
getattr(stock, this_friday_date / last_friday_date / data_source, None)
uses snake_case names the response does not define, so those three are
always None. -/
structure WeeklyItemMeta where
  market_cap : Option Int
  today_price : Option Int
  last_week_price : Option Int
  change_rate : Option ℚ
  week_high : Option Int
  week_low : Option Int
  this_friday_date : Option String
  last_friday_date : Option String
  data_source : Option String
  error : Option String
  source : String
deriving Repr, DecidableEq

/-- One incoming fact handed to bulk_upsert_weekly_data. -/
structure WeeklyItem where
  company_name : String
  content : ItemContent
  stock_code : Option String
  metadata : WeeklyItemMeta
deriving Repr, DecidableEq

/-- A row of the weekly_data table (WeeklyDataModel). -/
structure WeeklyRow where
  company_name : String
  content : ItemContent
  category : String
  week : String
  week_year : Int
  week_number : Int
  stock_code : Option String
  extra_data : WeeklyItemMeta
deriving Repr, DecidableEq

/-- Parse a %Y-%m-%d date string (strptime), None when malformed. -/
def parseDashDate (s : String) : Option (Int × Int × Int) :=
  match s.splitOn "-" with
  | [y, m, d] =>
    match y.toNat?, m.toNat?, d.toNat? with
    | some a, some b, some c => some ((a : Int), (b : Int), (c : Int))
    | _, _, _ => none
  | _ => none

/-- Python date.isocalendar restricted to (year, week): the ISO year and
week number of a day, via the Thursday of its week. -/
def isoCalendar (z : Int) : Int × Int :=
  let thursday := z + (3 - pyWeekday z)
  let y := (civilFromDays thursday).1
  (y, Int.fdiv (thursday - daysFromCivil y 1 1) 7 + 1)

/-- WeeklyDataModel.get_week_info: ISO year and week number of a week
string. The source raises ValueError on a malformed string; that path is
modelled as (0, 0) and is never exercised by well-formed weeks. -/
def getWeekInfo (week : String) : Int × Int :=
  match parseDashDate week with
  | some (y, m, d) => isoCalendar (daysFromCivil y m d)
  | none => (0, 0)

/-- WeeklyDataModel.get_current_week_monday: the Monday of the current
week, %Y-%m-%d formatted. -/
def getCurrentWeekMonday (today : Int) : String :=
  formatDayDash (today - pyWeekday today)

/-- The shared default for week arguments: Python if not week, which also
treats the empty string as absent. -/
def weekOrCurrent (weekArg : Option String) (today : Int) : String :=
  match weekArg with
  | some w => if w == "" then getCurrentWeekMonday today else w
  | none => getCurrentWeekMonday today

/-- Does a live row already occupy (entity, category, week)? The
duplicate check of WeeklyDataService.bulk_upsert_weekly_data. -/
def keyExists (st : List WeeklyRow) (companyName category week : String) : Bool :=
  st.any (fun r => r.company_name == companyName && r.category == category && r.week == week)

/-- The row bulk_upsert_weekly_data inserts for an incoming fact. -/
def mkWeeklyRow (item : WeeklyItem) (category week : String) (yr wn : Int) : WeeklyRow :=
  { company_name := item.company_name, content := item.content,
    category := category, week := week, week_year := yr, week_number := wn,
    stock_code := item.stock_code, extra_data := item.metadata }

/-- One iteration of the bulk_upsert_weekly_data loop over
(state, updated, skipped, errors): skip when the key is occupied, insert
otherwise. The per-item exception handler only fires on malformed dict
items, which the typed model excludes, so the error counter stays put. -/
def bulkUpsertStep (category week : String) (yr wn : Int)
    (acc : List WeeklyRow × Nat × Nat × Nat) (item : WeeklyItem) :
    List WeeklyRow × Nat × Nat × Nat :=
  let (st, upd, skp, err) := acc
  if keyExists st item.company_name category week then
    (st, upd, skp + 1, err)
  else
    (st ++ [mkWeeklyRow item category week yr wn], upd + 1, skp, err)

/-- The result dict of bulk_upsert_weekly_data. -/
structure BulkResult where
  status : String
  updated : Nat
  skipped : Nat
  errors : Nat
  week : String
  category : String
deriving Repr, DecidableEq

/-- WeeklyDataService.bulk_upsert_weekly_data: resolve the week, then for
each incoming fact skip when a row already occupies
(entity, category, week) and insert otherwise, counting both. -/
def bulk_upsert_weekly_data (st : List WeeklyRow) (weeklyItems : List WeeklyItem)
    (category : String) (weekArg : Option String) (today : Int) :
    BulkResult × List WeeklyRow :=
  let week := weekOrCurrent weekArg today
  let info := getWeekInfo week
  let folded := weeklyItems.foldl (bulkUpsertStep category week info.1 info.2) (st, 0, 0, 0)
  ({ status := "success", updated := folded.2.1, skipped := folded.2.2.1,
     errors := folded.2.2.2, week := week, category := category }, folded.1)

/-- A row of the weekly_batch_jobs table (WeeklyBatchJobModel). -/
structure BatchJobRecord where
  id : Nat
  job_type : String
  week : String
  status : String
  total_companies : Option Int := none
  updated_count : Option Nat := none
  skipped_count : Option Nat := none
  error_count : Option Nat := none
  started_at : Int
  finished_at : Option Int := none
  duration_seconds : Option Int := none
  error_message : Option String := none
deriving Repr, DecidableEq

/-- WeeklyBatchService.start_batch_job: insert a running record stamped
with the current time and return its fresh primary key. -/
def start_batch_job (st : List BatchJobRecord) (jobType : String)
    (weekArg : Option String) (today : Int) (now : Int) :
    List BatchJobRecord × Nat :=
  let week := weekOrCurrent weekArg today
  let id := st.length + 1
  (st ++ [{ id := id, job_type := jobType, week := week, status := "running",
            started_at := now }], id)

/-- WeeklyBatchService.finish_batch_job: look the job up by id; when
present, apply the single completion mutation — status failed exactly when
the error message is truthy, counts copied from the result dict with
default 0 (none models the empty dict of the failure path), finish time
and elapsed seconds filled. A missing id leaves the table unchanged. -/
def finish_batch_job (st : List BatchJobRecord) (jobId : Nat)
    (result : Option BulkResult) (errorMessage : Option String) (now : Int) :
    List BatchJobRecord :=
  match st.find? (fun r => r.id == jobId) with
  | none => st
  | some batchJob =>
    let duration := now - batchJob.started_at
    st.map (fun r =>
      if r.id == jobId then
        { r with status := if pyTruthyStr errorMessage then "failed" else "success",
                 updated_count := some ((result.map (fun x => x.updated)).getD 0),
                 skipped_count := some ((result.map (fun x => x.skipped)).getD 0),
                 error_count := some ((result.map (fun x => x.errors)).getD 0),
                 finished_at := some now,
                 duration_seconds := some duration,
                 error_message := errorMessage }
      else r)

/-- The GAME_COMPANIES dict the n8n router defines for itself (11 Korean
game companies), used only for the name/code mapping of weekly items. -/
def n8nGameCompanies : List (String × String) :=
  [("036570", "엔씨소프트"), ("251270", "넷마블"), ("259960", "크래프톤"),
   ("263750", "펄어비스"), ("078340", "컴투스"), ("112040", "위메이드"),
   ("293490", "카카오게임즈"), ("095660", "네오위즈"), ("181710", "NHN"),
   ("069080", "웹젠"), ("225570", "넥슨게임즈")]

/-- TOTAL_COMPANIES as the n8n router sees it. -/
def n8nTotalCompanies : Nat := n8nGameCompanies.length

/-- The weekly item the n8n router builds for one collected response.
An untruthy error with a None change rate or None close makes the
f-string comparison / formatting raise TypeError, modelled as the error
case. -/
def buildWeeklyItem (stock : WeeklyStockPriceResponse) : Except String WeeklyItem :=
  let named :=
    if n8nGameCompanies.any (fun p => p.2 == stock.symbol) then
      (stock.symbol, (n8nGameCompanies.find? (fun p => p.2 == stock.symbol)).map Prod.fst)
    else
      ((((n8nGameCompanies.find? (fun p => p.1 == stock.symbol)).map Prod.snd)).getD
        ("Unknown_" ++ stock.symbol), some stock.symbol)
  let contentE : Except String ItemContent :=
    if pyTruthyStr stock.error then
      .ok (.errText ((stock.error).getD ""))
    else
      match stock.changeRate, stock.today with
      | some cr, some td =>
        .ok (.statsText cr td
          (if pyTruthyInt stock.marketCap then stock.marketCap else none)
          (if pyTruthyInt stock.weekHigh && pyTruthyInt stock.weekLow then
            match stock.weekHigh, stock.weekLow with
            | some hi, some lo => some (hi, lo)
            | _, _ => none
          else none))
      | _, _ => .error "TypeError: NoneType in change-rate comparison or price format"
  contentE.map (fun content =>
    { company_name := named.1, content := content,
      stock_code := some (named.2.getD stock.symbol),
      metadata :=
        { market_cap := stock.marketCap, today_price := stock.today,
          last_week_price := stock.lastWeek, change_rate := stock.changeRate,
          week_high := stock.weekHigh, week_low := stock.weekLow,
          this_friday_date := none, last_friday_date := none,
          data_source := none, error := stock.error,
          source := "stock_crawler" } })

/-- Sequential monadic map over Except: the first raised exception aborts
the loop, as the router for-loop does. -/
def exceptMapM (f : α → Except String β) : List α → Except String (List β)
  | [] => .ok []
  | a :: l =>
    match f a with
    | .error e => .error e
    | .ok b => (exceptMapM f l).map (fun bs => b :: bs)

/-- The response body of POST /n8n/collect-stockprice. -/
structure N8nStats where
  successful_count : Nat
  error_count : Nat
  avg_change_rate : ℚ
deriving Repr, DecidableEq

/-- The dict collect_stockprice_for_n8n returns. -/
structure N8nResult where
  status : String
  updated : Nat
  skipped : Nat
  errors : Nat
  week : String
  total_companies : Nat
  stockprice_stats : N8nStats
  job_id : Nat
deriving Repr, DecidableEq

/-- collect_stockprice_for_n8n: open a running batch-job record, collect
all companies through the controller, convert each returned fact to a
weekly item, hand the batch to the dedup store, close the job record, and
report counts. A body exception instead closes the job record as failed
and surfaces an HTTP 500, modelled as the error case; t0 and t1 are the
clock readings at start and at completion. -/
def collect_stockprice_for_n8n (env : ProviderEnv) (bulkOk : Bool)
    (weekArg : Option String) (weeklyDb : List WeeklyRow)
    (ledger : List BatchJobRecord) (stockDb : List StockRow) (t0 t1 : Int) :
    Except String N8nResult × List WeeklyRow × List BatchJobRecord × List StockRow :=
  let week := weekOrCurrent weekArg env.today
  let started := start_batch_job ledger "stockprice" (some week) env.today t0
  let ledger1 := started.1
  let jobId := started.2
  let collected := get_all_weekly_stock_data env bulkOk stockDb
  let stockpriceResults := collected.1
  let stockDb1 := collected.2
  match exceptMapM buildWeeklyItem stockpriceResults with
  | .error e =>
    (.error e, weeklyDb, finish_batch_job ledger1 jobId none (some e) t1, stockDb1)
  | .ok weeklyItems =>
    let upserted := bulk_upsert_weekly_data weeklyDb weeklyItems "stockprice" (some week) env.today
    let result := upserted.1
    let weeklyDb1 := upserted.2
    let ledger2 := finish_batch_job ledger1 jobId (some result) none t1
    let successfulStocks := stockpriceResults.filter (fun s => !pyTruthyStr s.error)
    let errorStocks := stockpriceResults.filter (fun s => pyTruthyStr s.error)
    let avgChangeRate :=
      if successfulStocks.isEmpty then 0
      else pyRound2
        (((successfulStocks.map (fun s => (s.changeRate).getD 0)).sum) /
          (successfulStocks.length : ℚ))
    (.ok { status := result.status, updated := result.updated,
           skipped := result.skipped, errors := result.errors,
           week := result.week, total_companies := n8nTotalCompanies,
           stockprice_stats :=
             { successful_count := successfulStocks.length,
               error_count := errorStocks.length,
               avg_change_rate := avgChangeRate },
           job_id := jobId }, weeklyDb1, ledger2, stockDb1)

/-- Concrete environment for the batch counterexample: the daily-series
provider returns an empty series for 035420, the computation for 035720
raises an injected exception, and every other code gets a two-bar
series; the clock stands on Friday 1970-01-09 (day 8). -/
def probeEnv : ProviderEnv :=
  { today := 8,
    marketCap := fun _ => some 500,
    dailyData := fun c =>
      if c == "035420" then [] else [⟨8, 110, 112, 108, 0⟩, ⟨1, 100, 105, 95, 0⟩],
    failure := fun c => if c == "035720" then some "timeout" else none }

/-- Concrete environment whose providers return nothing, for witnesses. -/
def quietEnv : ProviderEnv :=
  { today := 8, marketCap := fun _ => none, dailyData := fun _ => [],
    failure := fun _ => none }

/-- Concrete environment in which one company raises an injected
exception and every other company gets an empty daily series. -/
def raisingEnv : ProviderEnv :=
  { today := 8, marketCap := fun _ => none, dailyData := fun _ => [],
    failure := fun c => if c == "035720" then some "timeout" else none }

/-- CLAIM C4: for every calendar day, the anchor computation returns this
Friday equal to the day itself exactly when the day is a Friday and the
immediately preceding Friday otherwise (never the upcoming one), the
prior anchor seven days earlier, both rendered in the fixed %Y.%m.%d
display format. -/
theorem c4_friday_anchors (now : Int) :
    pyWeekday (get_friday_days now).1 = 4 ∧
    (get_friday_days now).1 ≤ now ∧
    now - (get_friday_days now).1 < 7 ∧
    ((get_friday_days now).1 = now ↔ pyWeekday now = 4) ∧
    (get_friday_days now).2 = (get_friday_days now).1 - 7 ∧
    get_friday_dates now =
      (formatDay (get_friday_days now).1, formatDay (get_friday_days now).2) := by
  obtain ⟨q, r, hr0, hr7, rfl⟩ : ∃ q r, 0 ≤ r ∧ r < 7 ∧ now = 7 * q + r - 3 :=
    ⟨(now + 3) / 7, (now + 3) % 7, Int.emod_nonneg _ (by norm_num),
      Int.emod_lt_of_pos _ (by norm_num), by omega⟩
  refine ⟨?_, ?_, ?_, ?_, rfl, rfl⟩ <;>
  · simp only [get_friday_days, pyWeekday,
      show (7 * q + r - 3 + 3 : Int) = 7 * q + r from by ring,
      show ((7 * q + r : Int)) % 7 = r from by omega]
    split_ifs <;> omega

/-- Witness: the anchor theorem evaluated on day 10, a Sunday. -/
theorem c4_friday_anchors_witness :
    pyWeekday (get_friday_days 10).1 = 4 ∧
    (get_friday_days 10).1 ≤ 10 ∧
    10 - (get_friday_days 10).1 < 7 ∧
    ((get_friday_days 10).1 = 10 ↔ pyWeekday 10 = 4) ∧
    (get_friday_days 10).2 = (get_friday_days 10).1 - 7 ∧
    get_friday_dates 10 =
      (formatDay (get_friday_days 10).1, formatDay (get_friday_days 10).2) :=
  c4_friday_anchors 10

/-- The closest-day fold never returns none once a candidate is in hand
or a bar at or before the target occurs: none means the accumulator was
empty and every bar lies after the target, and conversely. -/
theorem fctd_fold_none (t : Int) :
    ∀ (l : List StockDataPoint) (acc : Option StockDataPoint),
      l.foldl (fctdStep t) acc = none ↔ acc = none ∧ ∀ d ∈ l, ¬ d.date ≤ t := by
  intro l
  induction l with
  | nil => intro acc; simp
  | cons a l ih =>
    intro acc
    simp only [List.foldl_cons]
    rw [ih]
    constructor
    · rintro ⟨hstep, hall⟩
      by_cases hd : a.date ≤ t
      · exfalso
        cases hacc : acc with
        | none => rw [hacc] at hstep; simp [fctdStep, hd] at hstep
        | some c =>
          rw [hacc] at hstep
          by_cases hlt : t - a.date < t - c.date <;> simp [fctdStep, hd, hlt] at hstep
      · have hstep' : fctdStep t acc a = acc := by simp [fctdStep, hd]
        rw [hstep'] at hstep
        refine ⟨hstep, fun d hdm => ?_⟩
        rcases List.mem_cons.mp hdm with rfl | hdl
        · exact hd
        · exact hall d hdl
    · rintro ⟨hacc, hall⟩
      have hd : ¬ a.date ≤ t := hall a (List.mem_cons_self a l)
      exact ⟨by simp [fctdStep, hd, hacc], fun d hdm => hall d (List.mem_cons_of_mem _ hdm)⟩

/-- Specification of the closest-day fold: a some result is the carried
candidate or a list member, lies at or before the target, and its date
dominates the candidate and every list member at or before the target. -/
theorem fctd_fold_some (t : Int) :
    ∀ (l : List StockDataPoint) (acc : Option StockDataPoint) (r : StockDataPoint),
      (∀ c, acc = some c → c.date ≤ t) →
      l.foldl (fctdStep t) acc = some r →
      (acc = some r ∨ r ∈ l) ∧ r.date ≤ t ∧
        (∀ c, acc = some c → c.date ≤ r.date) ∧
        ∀ d ∈ l, d.date ≤ t → d.date ≤ r.date := by
  intro l
  induction l with
  | nil =>
    intro acc r hacc h
    simp only [List.foldl_nil] at h
    refine ⟨Or.inl h, hacc r h, ?_, by simp⟩
    intro c hc
    rw [h] at hc
    cases hc
    exact le_refl _
  | cons a l ih =>
    intro acc r hacc h
    simp only [List.foldl_cons] at h
    by_cases hd : a.date ≤ t
    · cases acc with
      | none =>
        have hstep : fctdStep t none a = some a := by simp [fctdStep, hd]
        rw [hstep] at h
        obtain ⟨hmem, hrt, hcand, hmax⟩ :=
          ih (some a) r (by intro c hc; cases hc; exact hd) h
        refine ⟨?_, hrt, ?_, ?_⟩
        · rcases hmem with heq | hmem
          · cases heq; exact Or.inr (List.mem_cons_self _ _)
          · exact Or.inr (List.mem_cons_of_mem _ hmem)
        · intro c hc; cases hc
        · intro d hdm hdt
          rcases List.mem_cons.mp hdm with rfl | hdl
          · exact hcand d rfl
          · exact hmax d hdl hdt
      | some c0 =>
        have hc0t : c0.date ≤ t := hacc c0 rfl
        by_cases hlt : t - a.date < t - c0.date
        · have hstep : fctdStep t (some c0) a = some a := by simp [fctdStep, hd, hlt]
          rw [hstep] at h
          obtain ⟨hmem, hrt, hcand, hmax⟩ :=
            ih (some a) r (by intro c hc; cases hc; exact hd) h
          have har : a.date ≤ r.date := hcand a rfl
          refine ⟨?_, hrt, ?_, ?_⟩
          · rcases hmem with heq | hmem
            · cases heq; exact Or.inr (List.mem_cons_self _ _)
            · exact Or.inr (List.mem_cons_of_mem _ hmem)
          · intro c hc
            cases hc
            omega
          · intro d hdm hdt
            rcases List.mem_cons.mp hdm with rfl | hdl
            · exact har
            · exact hmax d hdl hdt
        · have hstep : fctdStep t (some c0) a = some c0 := by simp [fctdStep, hd, hlt]
          rw [hstep] at h
          obtain ⟨hmem, hrt, hcand, hmax⟩ :=
            ih (some c0) r (by intro c hc; cases hc; exact hc0t) h
          have hc0r : c0.date ≤ r.date := hcand c0 rfl
          refine ⟨?_, hrt, ?_, ?_⟩
          · rcases hmem with heq | hmem
            · exact Or.inl heq
            · exact Or.inr (List.mem_cons_of_mem _ hmem)
          · intro c hc
            cases hc
            exact hc0r
          · intro d hdm hdt
            rcases List.mem_cons.mp hdm with rfl | hdl
            · omega
            · exact hmax d hdl hdt
    · have hstep : fctdStep t acc a = acc := by simp [fctdStep, hd]
      rw [hstep] at h
      obtain ⟨hmem, hrt, hcand, hmax⟩ := ih acc r hacc h
      refine ⟨hmem.imp id (List.mem_cons_of_mem _), hrt, hcand, ?_⟩
      intro d hdm hdt
      rcases List.mem_cons.mp hdm with rfl | hdl
      · exact absurd hdt hd
      · exact hmax d hdl hdt

/-- find_closest_trading_day returns none exactly when every bar is dated
strictly after the target. -/
theorem find_closest_none_iff (t : Int) (l : List StockDataPoint) :
    find_closest_trading_day t l = none ↔ ∀ d ∈ l, t < d.date := by
  unfold find_closest_trading_day
  cases hf : l.find? (fun d => d.date == t) with
  | some d =>
    have hdl : d ∈ l := List.mem_of_find?_eq_some hf
    have hdt : d.date = t := by simpa using List.find?_some hf
    simp only []
    constructor
    · intro h; cases h
    · intro h
      exact absurd (h d hdl) (by omega)
  | none =>
    rw [fctd_fold_none]
    simp only [true_and]
    constructor
    · intro h d hd
      have := h d hd
      omega
    · intro h d hd
      have := h d hd
      omega

/-- A some result of find_closest_trading_day is a bar of the series, at
or before the target, with maximal date among such bars. -/
theorem find_closest_spec (t : Int) (l : List StockDataPoint) (r : StockDataPoint)
    (h : find_closest_trading_day t l = some r) :
    r ∈ l ∧ r.date ≤ t ∧ ∀ d ∈ l, d.date ≤ t → d.date ≤ r.date := by
  unfold find_closest_trading_day at h
  cases hf : l.find? (fun d => d.date == t) with
  | some d =>
    rw [hf] at h
    cases h
    have hdt : r.date = t := by simpa using List.find?_some hf
    exact ⟨List.mem_of_find?_eq_some hf, le_of_eq hdt,
      fun d hd hdle => by omega⟩
  | none =>
    rw [hf] at h
    obtain ⟨hmem, hrt, _, hmax⟩ := fctd_fold_some t l none r (by intro c hc; cases hc) h
    refine ⟨?_, hrt, hmax⟩
    rcases hmem with heq | hmem
    · cases heq
    · exact hmem

/-- With pairwise-distinct dates, a bar dated exactly at the target is
the value find_closest_trading_day returns. -/
theorem find_closest_exact (t : Int) (l : List StockDataPoint) (b : StockDataPoint)
    (hnd : l.Pairwise (fun x y => x.date ≠ y.date)) (hb : b ∈ l) (hbt : b.date = t) :
    find_closest_trading_day t l = some b := by
  have hfind : l.find? (fun d => d.date == t) = some b := by
    induction l with
    | nil => cases hb
    | cons a l ih =>
      rcases List.mem_cons.mp hb with rfl | hbl
      · have : (b.date == t) = true := by simp [hbt]
        simp [List.find?_cons, this]
      · have hane : a.date ≠ b.date := (List.pairwise_cons.mp hnd).1 b hbl
        have hpa : (a.date == t) = false := by
          rw [beq_eq_false_iff_ne]
          omega
        rw [List.find?_cons, hpa]
        exact ih (List.pairwise_cons.mp hnd).2 hbl
  unfold find_closest_trading_day
  rw [hfind]

/-- CLAIM C3: the closest-trading-day lookup returns the bar dated
exactly at the target when one exists (dates being pairwise distinct),
otherwise the date-maximal bar at or before the target (minimum date
distance), and none exactly when no bar is at or before the target; in
particular the two concrete 2025-01 examples of the specification. -/
theorem c3_closest_trading_day :
    (∀ (target : Int) (bars : List StockDataPoint) (b : StockDataPoint),
        bars.Pairwise (fun x y => x.date ≠ y.date) → b ∈ bars → b.date = target →
        find_closest_trading_day target bars = some b) ∧
    (∀ (target : Int) (bars : List StockDataPoint) (r : StockDataPoint),
        find_closest_trading_day target bars = some r →
        r ∈ bars ∧ r.date ≤ target ∧
          ∀ d ∈ bars, d.date ≤ target → d.date ≤ r.date) ∧
    (∀ (target : Int) (bars : List StockDataPoint),
        find_closest_trading_day target bars = none ↔ ∀ d ∈ bars, target < d.date) ∧
    find_closest_trading_day (daysFromCivil 2025 1 9)
        [⟨daysFromCivil 2025 1 3, 100, 105, 95, 0⟩,
         ⟨daysFromCivil 2025 1 10, 110, 112, 108, 0⟩] =
      some ⟨daysFromCivil 2025 1 3, 100, 105, 95, 0⟩ ∧
    find_closest_trading_day (daysFromCivil 2025 1 1)
        [⟨daysFromCivil 2025 1 3, 100, 105, 95, 0⟩,
         ⟨daysFromCivil 2025 1 10, 110, 112, 108, 0⟩] = none :=
  ⟨fun target bars b hnd hb hbt => find_closest_exact target bars b hnd hb hbt,
   fun target bars r h => find_closest_spec target bars r h,
   fun target bars => find_closest_none_iff target bars,
   by decide, by decide⟩

/-- Witness: the exact-match clause of the closest-day theorem applied to
a concrete two-bar series. -/
theorem c3_closest_trading_day_witness :
    find_closest_trading_day 7 [⟨0, 100, 105, 95, 0⟩, ⟨7, 110, 112, 108, 0⟩] =
      some ⟨7, 110, 112, 108, 0⟩ :=
  c3_closest_trading_day.1 7 [⟨0, 100, 105, 95, 0⟩, ⟨7, 110, 112, 108, 0⟩]
    ⟨7, 110, 112, 108, 0⟩ (by decide) (by decide) (by decide)

/-- The seed of a left max fold bounds the result. -/
theorem foldl_max_high_init (l : List StockDataPoint) (a : Int) :
    a ≤ l.foldl (fun m d => max m d.high) a := by
  induction l generalizing a with
  | nil => simp
  | cons x l ih => exact le_trans (le_max_left _ _) (ih (max a x.high))

/-- Every member of a left max fold bounds the result from below. -/
theorem foldl_max_high_mem (l : List StockDataPoint) (a : Int) (d : StockDataPoint)
    (hd : d ∈ l) : d.high ≤ l.foldl (fun m x => max m x.high) a := by
  induction l generalizing a with
  | nil => cases hd
  | cons x l ih =>
    rcases List.mem_cons.mp hd with rfl | hdl
    · exact le_trans (le_max_right _ _) (foldl_max_high_init l _)
    · exact ih _ hdl

/-- The seed of a left min fold bounds the result from below. -/
theorem foldl_min_low_init (l : List StockDataPoint) (a : Int) :
    l.foldl (fun m d => min m d.low) a ≤ a := by
  induction l generalizing a with
  | nil => simp
  | cons x l ih => exact le_trans (ih (min a x.low)) (min_le_left _ _)

/-- Every member of a left min fold bounds the result from above. -/
theorem foldl_min_low_mem (l : List StockDataPoint) (a : Int) (d : StockDataPoint)
    (hd : d ∈ l) : l.foldl (fun m x => min m x.low) a ≤ d.low := by
  induction l generalizing a with
  | nil => cases hd
  | cons x l ih =>
    rcases List.mem_cons.mp hd with rfl | hdl
    · exact le_trans (foldl_min_low_init l _) (min_le_right _ _)
    · exact ih _ hdl

/-- Rounding zero to two decimals gives zero. -/
theorem pyRound2_zero : pyRound2 0 = 0 := by
  norm_num [pyRound2, roundHalfEven, ratFloor]

/-- CLAIM C5: whenever both anchor bars resolve, the statistics are
produced (no division error is possible) with change rate
round2((this - prior) / prior * 100), and 0 when the prior close is 0. -/
theorem c5_change_rate (bars : List StockDataPoint) (tf lf : Int)
    (tb pb : StockDataPoint) (hne : bars ≠ [])
    (h1 : find_closest_trading_day tf bars = some tb)
    (h2 : find_closest_trading_day lf bars = some pb) :
    ∃ s, calculate_weekly_stats_by_date bars tf lf = some s ∧
      s.today = tb.close ∧ s.lastWeek = pb.close ∧
      s.changeRate =
        (if pb.close = 0 then (0 : ℚ)
         else pyRound2 ((((tb.close : ℚ)) - (pb.close : ℚ)) / (pb.close : ℚ) * 100)) := by
  have hie : bars.isEmpty = false := by
    cases bars with
    | nil => exact absurd rfl hne
    | cons a l => rfl
  simp only [calculate_weekly_stats_by_date, hie, Bool.false_eq_true, if_false, h1, h2]
  refine ⟨_, rfl, rfl, rfl, ?_⟩
  by_cases hz : pb.close = 0
  · simp [hz, pyRound2_zero]
  · simp [hz]

/-- Witness: the change-rate theorem on the concrete two-bar scenario of
the specification (closes 110 and 100 on consecutive Fridays). -/
theorem c5_change_rate_witness :
    ∃ s,
      calculate_weekly_stats_by_date [⟨8, 110, 112, 108, 0⟩, ⟨1, 100, 105, 95, 0⟩] 8 1 =
        some s ∧
      s.today = (⟨8, 110, 112, 108, 0⟩ : StockDataPoint).close ∧
      s.lastWeek = (⟨1, 100, 105, 95, 0⟩ : StockDataPoint).close ∧
      s.changeRate =
        (if (⟨1, 100, 105, 95, 0⟩ : StockDataPoint).close = 0 then (0 : ℚ)
         else pyRound2
           ((((⟨8, 110, 112, 108, 0⟩ : StockDataPoint).close : ℚ) -
              ((⟨1, 100, 105, 95, 0⟩ : StockDataPoint).close : ℚ)) /
              ((⟨1, 100, 105, 95, 0⟩ : StockDataPoint).close : ℚ) * 100)) :=
  c5_change_rate [⟨8, 110, 112, 108, 0⟩, ⟨1, 100, 105, 95, 0⟩] 8 1
    ⟨8, 110, 112, 108, 0⟩ ⟨1, 100, 105, 95, 0⟩ (by decide) (by decide) (by decide)

/-- CLAIM C9: over bars with low ≤ close ≤ high, a produced weekly
statistic whose current-week window is non-empty has
week_low ≤ this_week_close ≤ week_high. -/
theorem c9_week_bounds (bars : List StockDataPoint) (tf lf : Int) (s : WeeklyStats)
    (hwf : ∀ b ∈ bars, b.low ≤ b.close ∧ b.close ≤ b.high)
    (hwin : bars.filter (fun d => decide (tf - d.date ≤ 4 ∧ d.date ≤ tf)) ≠ [])
    (hs : calculate_weekly_stats_by_date bars tf lf = some s) :
    s.weekLow ≤ s.today ∧ s.today ≤ s.weekHigh := by
  have hie : bars.isEmpty = false := by
    cases hb : bars with
    | nil =>
      rw [hb] at hwin
      simp at hwin
    | cons a l => rfl
  cases h1 : find_closest_trading_day tf bars with
  | none => simp [calculate_weekly_stats_by_date, hie, h1] at hs
  | some tb =>
    cases h2 : find_closest_trading_day lf bars with
    | none => simp [calculate_weekly_stats_by_date, hie, h2] at hs
    | some pb =>
      simp only [calculate_weekly_stats_by_date, hie, Bool.false_eq_true, if_false,
        h1, h2] at hs
      obtain ⟨hmem, hle, hmax⟩ := find_closest_spec tf bars tb h1
      cases hwcase : bars.filter (fun d => decide (tf - d.date ≤ 4 ∧ d.date ≤ tf)) with
      | nil => exact absurd hwcase hwin
      | cons h t =>
        obtain ⟨hx, hxp⟩ :
            h ∈ bars ∧ (tf - h.date ≤ 4 ∧ h.date ≤ tf) := by
          have := List.mem_filter.mp (hwcase ▸ List.mem_cons_self h t)
          exact ⟨this.1, by simpa using this.2⟩
        have htbw : tb ∈ bars.filter (fun d => decide (tf - d.date ≤ 4 ∧ d.date ≤ tf)) := by
          refine List.mem_filter.mpr ⟨hmem, ?_⟩
          have hxtb : h.date ≤ tb.date := hmax h hx hxp.2
          simp only [decide_eq_true_eq]
          omega
        rw [hwcase] at hs
        simp only [] at hs
        cases hs
        have hclose := hwf tb hmem
        constructor
        · rcases List.mem_cons.mp (hwcase ▸ htbw) with rfl | htl
          · exact le_trans (foldl_min_low_init t _) hclose.1
          · exact le_trans (foldl_min_low_mem t _ tb htl) hclose.1
        · rcases List.mem_cons.mp (hwcase ▸ htbw) with rfl | htl
          · exact le_trans hclose.2 (foldl_max_high_init t _)
          · exact le_trans hclose.2 (foldl_max_high_mem t _ tb htl)

/-- Witness: the week-bounds theorem on the concrete two-bar scenario. -/
theorem c9_week_bounds_witness :
    ∃ s, calculate_weekly_stats_by_date [⟨8, 110, 112, 108, 0⟩, ⟨1, 100, 105, 95, 0⟩] 8 1 =
        some s ∧ s.weekLow ≤ s.today ∧ s.today ≤ s.weekHigh := by
  have h : (calculate_weekly_stats_by_date
      [⟨8, 110, 112, 108, 0⟩, ⟨1, 100, 105, 95, 0⟩] 8 1).isSome = true := by decide
  obtain ⟨s, hs⟩ := Option.isSome_iff_exists.mp h
  exact ⟨s, hs,
    c9_week_bounds [⟨8, 110, 112, 108, 0⟩, ⟨1, 100, 105, 95, 0⟩] 8 1 s
      (by decide) (by decide) hs⟩

/-- Scanning bars that all share the candidate date never displaces the
candidate: the distance test is strict. -/
theorem fctd_fold_const (t : Int) (b : StockDataPoint) :
    ∀ (l : List StockDataPoint), (∀ x ∈ l, x.date = b.date) →
      l.foldl (fctdStep t) (some b) = some b := by
  intro l
  induction l with
  | nil => intro _; rfl
  | cons x l ih =>
    intro hone
    have hx : x.date = b.date := hone x (List.mem_cons_self x l)
    have hstep : fctdStep t (some b) x = some b := by
      simp [fctdStep, hx, lt_irrefl, ite_self]
    simp only [List.foldl_cons, hstep]
    exact ih (fun y hy => hone y (List.mem_cons_of_mem _ hy))

/-- On a series whose bars all share the head date, a target at or after
that date resolves to the head bar. -/
theorem find_closest_const (t : Int) (b : StockDataPoint) (rest : List StockDataPoint)
    (hone : ∀ x ∈ rest, x.date = b.date) (hbt : b.date ≤ t) :
    find_closest_trading_day t (b :: rest) = some b := by
  unfold find_closest_trading_day
  by_cases hexact : b.date = t
  · have hp : (b.date == t) = true := by simp [hexact]
    simp [List.find?_cons, hp]
  · have hfn : (b :: rest).find? (fun d => d.date == t) = none := by
      apply List.find?_eq_none.mpr
      intro x hx
      rcases List.mem_cons.mp hx with rfl | hxr
      · simp [hexact]
      · simp [hone x hxr, hexact]
    rw [hfn]
    simp only [List.foldl_cons]
    have hstep : fctdStep t none b = some b := by simp [fctdStep, hbt]
    rw [hstep]
    exact fctd_fold_const t b rest hone

/-- COUNTEREXAMPLE to CLAIM C6 as stated: a series with a single distinct
trading day, dated at or before the prior-Friday anchor, yields a
non-empty weekly statistic (anchors day 8 = Friday 1970-01-09 and day 1,
as the anchor computation produces for day 8). -/
theorem c6_counterexample :
    (([⟨0, 100, 105, 95, 0⟩] : List StockDataPoint).map (fun d => d.date)).dedup.length = 1 ∧
    get_friday_days 8 = (8, 1) ∧
    (calculate_weekly_stats_by_date [⟨0, 100, 105, 95, 0⟩] 8 1).isSome = true := by
  refine ⟨by decide, by decide, by decide⟩

/-- CLAIM C6, amended: a series with fewer than two distinct trading days
yields an empty result except when the lone trading date lies at or
before the prior-Friday anchor; then both anchors resolve to the same bar
and a complete statistic with change rate 0 (this close = prior close) is
produced. An empty series always yields an empty result. -/
theorem c6_single_day_amended (b : StockDataPoint) (rest : List StockDataPoint)
    (tf lf : Int) (hlf : lf < tf)
    (hone : ∀ x ∈ b :: rest, x.date = b.date) :
    calculate_weekly_stats_by_date [] tf lf = none ∧
    (tf < b.date → calculate_weekly_stats_by_date (b :: rest) tf lf = none) ∧
    (lf < b.date → b.date ≤ tf → calculate_weekly_stats_by_date (b :: rest) tf lf = none) ∧
    (b.date ≤ lf → ∃ s, calculate_weekly_stats_by_date (b :: rest) tf lf = some s ∧
      s.changeRate = 0 ∧ s.today = b.close ∧ s.lastWeek = b.close) := by
  have hrest : ∀ x ∈ rest, x.date = b.date :=
    fun x hx => hone x (List.mem_cons_of_mem _ hx)
  refine ⟨by simp [calculate_weekly_stats_by_date], ?_, ?_, ?_⟩
  · intro hafter
    have h1 : find_closest_trading_day tf (b :: rest) = none := by
      rw [find_closest_none_iff]
      intro d hd
      rw [hone d hd]
      exact hafter
    simp [calculate_weekly_stats_by_date, h1]
  · intro hblf hbtf
    have h2 : find_closest_trading_day lf (b :: rest) = none := by
      rw [find_closest_none_iff]
      intro d hd
      rw [hone d hd]
      exact hblf
    cases h1 : find_closest_trading_day tf (b :: rest) <;>
      simp [calculate_weekly_stats_by_date, h1, h2]
  · intro hble
    have h1 : find_closest_trading_day tf (b :: rest) = some b :=
      find_closest_const tf b rest hrest (by omega)
    have h2 : find_closest_trading_day lf (b :: rest) = some b :=
      find_closest_const lf b rest hrest hble
    simp only [calculate_weekly_stats_by_date, List.isEmpty_cons, Bool.false_eq_true,
      if_false, h1, h2]
    refine ⟨_, rfl, ?_, rfl, rfl⟩
    by_cases hz : b.close = 0
    · simp [hz, pyRound2_zero]
    · simp [hz, sub_self, zero_div, zero_mul, pyRound2_zero]

/-- Witness: the amended single-day theorem on a one-bar series at day 0
with anchors 8 and 1. -/
theorem c6_single_day_amended_witness :
    ∃ s, calculate_weekly_stats_by_date [⟨0, 100, 105, 95, 0⟩] 8 1 = some s ∧
      s.changeRate = 0 ∧ s.today = (⟨0, 100, 105, 95, 0⟩ : StockDataPoint).close ∧
      s.lastWeek = (⟨0, 100, 105, 95, 0⟩ : StockDataPoint).close :=
  (c6_single_day_amended ⟨0, 100, 105, 95, 0⟩ [] 8 1 (by decide) (by decide)).2.2.2
    (by decide)

/-- Key occupancy is monotone under appending rows. -/
theorem keyExists_append (st ext : List WeeklyRow) (c cat wk : String)
    (h : keyExists st c cat wk = true) : keyExists (st ++ ext) c cat wk = true := by
  simp only [keyExists, List.any_append, Bool.or_eq_true]
  exact Or.inl (by simpa [keyExists] using h)

/-- A freshly inserted row occupies its own key. -/
theorem keyExists_insert (st : List WeeklyRow) (item : WeeklyItem)
    (cat wk : String) (yr wn : Int) :
    keyExists (st ++ [mkWeeklyRow item cat wk yr wn]) item.company_name cat wk = true := by
  simp [keyExists, List.any_append, mkWeeklyRow]

/-- The dedup fold only appends rows to the store. -/
theorem bulk_fold_extends (cat wk : String) (yr wn : Int) :
    ∀ (items : List WeeklyItem) (st : List WeeklyRow) (u s e : Nat),
      ∃ ext, (items.foldl (bulkUpsertStep cat wk yr wn) (st, u, s, e)).1 = st ++ ext := by
  intro items
  induction items with
  | nil => intro st u s e; exact ⟨[], by simp⟩
  | cons i items ih =>
    intro st u s e
    simp only [List.foldl_cons, bulkUpsertStep]
    by_cases hk : keyExists st i.company_name cat wk = true
    · simp only [hk, if_true]
      exact ih st u (s + 1) e
    · simp only [hk, Bool.false_eq_true, if_false]
      obtain ⟨ext, hext⟩ := ih (st ++ [mkWeeklyRow i cat wk yr wn]) (u + 1) s e
      exact ⟨[mkWeeklyRow i cat wk yr wn] ++ ext, by rw [hext, List.append_assoc]⟩

/-- After the dedup fold, every processed fact finds its key occupied. -/
theorem bulk_fold_postkeys (cat wk : String) (yr wn : Int) :
    ∀ (items : List WeeklyItem) (st : List WeeklyRow) (u s e : Nat)
      (i : WeeklyItem), i ∈ items →
      keyExists ((items.foldl (bulkUpsertStep cat wk yr wn) (st, u, s, e)).1)
        i.company_name cat wk = true := by
  intro items
  induction items with
  | nil => intro st u s e i hi; cases hi
  | cons j items ih =>
    intro st u s e i hi
    simp only [List.foldl_cons, bulkUpsertStep]
    by_cases hk : keyExists st j.company_name cat wk = true
    · simp only [hk, if_true]
      rcases List.mem_cons.mp hi with rfl | hil
      · obtain ⟨ext, hext⟩ := bulk_fold_extends cat wk yr wn items st u (s + 1) e
        rw [hext]
        exact keyExists_append st ext i.company_name cat wk hk
      · exact ih st u (s + 1) e i hil
    · simp only [hk, Bool.false_eq_true, if_false]
      rcases List.mem_cons.mp hi with rfl | hil
      · obtain ⟨ext, hext⟩ :=
          bulk_fold_extends cat wk yr wn items (st ++ [mkWeeklyRow i cat wk yr wn]) (u + 1) s e
        rw [hext]
        exact keyExists_append (st ++ [mkWeeklyRow i cat wk yr wn]) ext
          i.company_name cat wk (keyExists_insert st i cat wk yr wn)
      · exact ih (st ++ [mkWeeklyRow j cat wk yr wn]) (u + 1) s e i hil

/-- When every fact of the batch already finds its key occupied, the
dedup fold leaves the store untouched and counts every fact as skipped. -/
theorem bulk_fold_skip_all (cat wk : String) (yr wn : Int) :
    ∀ (items : List WeeklyItem) (st : List WeeklyRow) (u s e : Nat),
      (∀ i ∈ items, keyExists st i.company_name cat wk = true) →
      items.foldl (bulkUpsertStep cat wk yr wn) (st, u, s, e) =
        (st, u, s + items.length, e) := by
  intro items
  induction items with
  | nil => intro st u s e _; simp
  | cons j items ih =>
    intro st u s e hall
    have hk := hall j (List.mem_cons_self j items)
    simp only [List.foldl_cons, bulkUpsertStep, hk, if_true]
    rw [ih st u (s + 1) e (fun i hi => hall i (List.mem_cons_of_mem _ hi))]
    have : s + 1 + items.length = s + (j :: items).length := by
      simp [List.length_cons]; omega
    rw [this]

/-- Counts are conserved by the dedup fold: each fact is either inserted
or skipped, and the error counter never moves. -/
theorem bulk_fold_counts (cat wk : String) (yr wn : Int) :
    ∀ (items : List WeeklyItem) (st : List WeeklyRow) (u s e : Nat),
      ((items.foldl (bulkUpsertStep cat wk yr wn) (st, u, s, e)).2.1 +
        (items.foldl (bulkUpsertStep cat wk yr wn) (st, u, s, e)).2.2.1 =
          u + s + items.length) ∧
      (items.foldl (bulkUpsertStep cat wk yr wn) (st, u, s, e)).2.2.2 = e := by
  intro items
  induction items with
  | nil => intro st u s e; simp
  | cons j items ih =>
    intro st u s e
    simp only [List.foldl_cons, bulkUpsertStep]
    by_cases hk : keyExists st j.company_name cat wk = true
    · simp only [hk, if_true]
      obtain ⟨h1, h2⟩ := ih st u (s + 1) e
      exact ⟨by rw [h1]; simp [List.length_cons]; omega, h2⟩
    · simp only [hk, Bool.false_eq_true, if_false]
      obtain ⟨h1, h2⟩ := ih (st ++ [mkWeeklyRow j cat wk yr wn]) (u + 1) s e
      exact ⟨by rw [h1]; simp [List.length_cons]; omega, h2⟩

/-- CLAIM C2: the bulk dedup write inserts a fact and counts it updated
exactly when no row occupies (entity, category, week) and skips it
(counting skipped) otherwise; counts are conserved; and re-running the
same batch against the store the first run produced yields updated = 0,
skipped = N with the store unchanged. -/
theorem c2_bulk_upsert_dedup (st : List WeeklyRow) (items : List WeeklyItem)
    (item : WeeklyItem) (cat w : String) (nd : Int) (hw : w ≠ "") :
    ((bulk_upsert_weekly_data st [item] cat (some w) nd).1.updated =
        if keyExists st item.company_name cat w then 0 else 1) ∧
    ((bulk_upsert_weekly_data st [item] cat (some w) nd).1.skipped =
        if keyExists st item.company_name cat w then 1 else 0) ∧
    ((bulk_upsert_weekly_data st [item] cat (some w) nd).2 =
        if keyExists st item.company_name cat w then st
        else st ++ [mkWeeklyRow item cat w (getWeekInfo w).1 (getWeekInfo w).2]) ∧
    ((bulk_upsert_weekly_data st items cat (some w) nd).1.updated +
        (bulk_upsert_weekly_data st items cat (some w) nd).1.skipped = items.length) ∧
    ((bulk_upsert_weekly_data
          ((bulk_upsert_weekly_data st items cat (some w) nd).2) items cat
          (some w) nd).1.updated = 0) ∧
    ((bulk_upsert_weekly_data
          ((bulk_upsert_weekly_data st items cat (some w) nd).2) items cat
          (some w) nd).1.skipped = items.length) ∧
    ((bulk_upsert_weekly_data
          ((bulk_upsert_weekly_data st items cat (some w) nd).2) items cat
          (some w) nd).2 = (bulk_upsert_weekly_data st items cat (some w) nd).2) := by
  have hweek : weekOrCurrent (some w) nd = w := by
    simp [weekOrCurrent, hw]
  have hpost : ∀ i ∈ items,
      keyExists ((bulk_upsert_weekly_data st items cat (some w) nd).2)
        i.company_name cat w = true := by
    intro i hi
    simp only [bulk_upsert_weekly_data, hweek]
    exact bulk_fold_postkeys cat w (getWeekInfo w).1 (getWeekInfo w).2 items st 0 0 0 i hi
  have hskip := bulk_fold_skip_all cat w (getWeekInfo w).1 (getWeekInfo w).2 items
    ((bulk_upsert_weekly_data st items cat (some w) nd).2) 0 0 0
    (fun i hi => hpost i hi)
  refine ⟨?_, ?_, ?_, ?_, ?_, ?_, ?_⟩
  · by_cases hk : keyExists st item.company_name cat w = true <;>
      simp [bulk_upsert_weekly_data, hweek, bulkUpsertStep, hk]
  · by_cases hk : keyExists st item.company_name cat w = true <;>
      simp [bulk_upsert_weekly_data, hweek, bulkUpsertStep, hk]
  · by_cases hk : keyExists st item.company_name cat w = true <;>
      simp [bulk_upsert_weekly_data, hweek, bulkUpsertStep, hk]
  · have := (bulk_fold_counts cat w (getWeekInfo w).1 (getWeekInfo w).2 items st 0 0 0).1
    simpa [bulk_upsert_weekly_data, hweek] using this
  · simp only [bulk_upsert_weekly_data, hweek] at hskip ⊢
    rw [hskip]
  · simp only [bulk_upsert_weekly_data, hweek] at hskip ⊢
    rw [hskip]
    simp
  · simp only [bulk_upsert_weekly_data, hweek] at hskip ⊢
    rw [hskip]

/-- Witness: the dedup-write theorem on a one-fact batch against an empty
store (its updated and skipped counts sum to the batch size). -/
theorem c2_bulk_upsert_dedup_witness :
    (bulk_upsert_weekly_data [] [⟨"크래프톤", .errText "e", some "259960",
        ⟨none, none, none, none, none, none, none, none, none, none, "stock_crawler"⟩⟩]
        "stockprice" (some "2025-01-06") 0).1.updated +
      (bulk_upsert_weekly_data [] [⟨"크래프톤", .errText "e", some "259960",
        ⟨none, none, none, none, none, none, none, none, none, none, "stock_crawler"⟩⟩]
        "stockprice" (some "2025-01-06") 0).1.skipped =
      ([⟨"크래프톤", .errText "e", some "259960",
        ⟨none, none, none, none, none, none, none, none, none, none,
          "stock_crawler"⟩⟩] : List WeeklyItem).length :=
  (c2_bulk_upsert_dedup [] [⟨"크래프톤", .errText "e", some "259960",
      ⟨none, none, none, none, none, none, none, none, none, none, "stock_crawler"⟩⟩]
    ⟨"크래프톤", .errText "e", some "259960",
      ⟨none, none, none, none, none, none, none, none, none, none, "stock_crawler"⟩⟩
    "stockprice" "2025-01-06" 0 (by decide)).2.2.2.1

/-- CLAIM C1 (code evaluation): every call of the single-entity upsert
path fails with AttributeError, because StockPriceRepository defines no
upsert_by_symbol method; in particular the concrete call on an empty
store does. -/
theorem c1_upsert_by_symbol_always_raises :
    (∀ (st : List StockRow) (d : WeeklyStockPriceCreate),
        upsert_by_symbol st d =
          .error "AttributeError: StockPriceRepository has no attribute upsert_by_symbol") ∧
    upsert_by_symbol [] { symbol := "크래프톤", today := some 100 } =
      .error "AttributeError: StockPriceRepository has no attribute upsert_by_symbol" :=
  ⟨fun st d => rfl, rfl⟩

/-- find? skips a prefix on which the predicate fails. -/
theorem find?_append_of_none {α : Type} (p : α → Bool) (l1 l2 : List α)
    (h : l1.find? p = none) : (l1 ++ l2).find? p = l2.find? p := by
  induction l1 with
  | nil => simp
  | cons a l ih =>
    rw [List.find?_cons] at h
    cases hp : p a with
    | true => rw [hp] at h; cases h
    | false =>
      rw [hp] at h
      simpa [List.find?_cons, hp] using ih h

/-- Completing a batch job whose id is fresh for the rest of the ledger
rewrites exactly that record, in one mutation filling status, the three
counts, the finish time and the duration from its own start time. -/
theorem finish_batch_job_spec (st : List BatchJobRecord) (rec : BatchJobRecord)
    (n : Nat) (result : Option BulkResult) (errMsg : Option String) (t1 : Int)
    (hid : rec.id = n) (hfresh : ∀ r ∈ st, r.id ≠ n) :
    finish_batch_job (st ++ [rec]) n result errMsg t1 =
      st ++ [{ rec with
        status := if pyTruthyStr errMsg then "failed" else "success",
        updated_count := some ((result.map (fun x => x.updated)).getD 0),
        skipped_count := some ((result.map (fun x => x.skipped)).getD 0),
        error_count := some ((result.map (fun x => x.errors)).getD 0),
        finished_at := some t1,
        duration_seconds := some (t1 - rec.started_at),
        error_message := errMsg }] := by
  have hnone : st.find? (fun r => r.id == n) = none := by
    apply List.find?_eq_none.mpr
    intro r hr
    simp [hfresh r hr]
  have hfind : (st ++ [rec]).find? (fun r => r.id == n) = some rec := by
    rw [find?_append_of_none _ _ _ hnone]
    simp [List.find?_cons, hid]
  simp only [finish_batch_job, hfind, List.map_append]
  congr 1
  · have hmap : ∀ r ∈ st,
        (if r.id == n then
          { r with
            status := if pyTruthyStr errMsg then "failed" else "success",
            updated_count := some ((result.map (fun x => x.updated)).getD 0),
            skipped_count := some ((result.map (fun x => x.skipped)).getD 0),
            error_count := some ((result.map (fun x => x.errors)).getD 0),
            finished_at := some t1,
            duration_seconds := some (t1 - rec.started_at),
            error_message := errMsg }
        else r) = id r := by
      intro r hr
      rw [if_neg]
      · rfl
      · simp [hfresh r hr]
    rw [List.map_congr_left hmap, List.map_id]
  · simp [hid]

/-- CLAIM C8: the batch-job ledger record is created running (counts and
finish fields unset) with the start time stamped, and completion applies
one mutation that sets status to failed exactly when an error message is
truthy and success otherwise, copies the three counts, stamps the finish
time, and sets duration to the wall-clock seconds from creation to the
final update; every other record is untouched. -/
theorem c8_batch_job_lifecycle (st : List BatchJobRecord) (jobType : String)
    (weekArg : Option String) (nd t0 t1 : Int) (result : Option BulkResult)
    (errMsg : Option String)
    (hfresh : ∀ r ∈ st, r.id ≠ st.length + 1) :
    ∃ rec : BatchJobRecord,
      start_batch_job st jobType weekArg nd t0 = (st ++ [rec], st.length + 1) ∧
      rec.id = st.length + 1 ∧ rec.status = "running" ∧ rec.started_at = t0 ∧
      rec.updated_count = none ∧ rec.skipped_count = none ∧ rec.error_count = none ∧
      rec.finished_at = none ∧ rec.duration_seconds = none ∧ rec.error_message = none ∧
      finish_batch_job (st ++ [rec]) (st.length + 1) result errMsg t1 =
        st ++ [{ rec with
          status := if pyTruthyStr errMsg then "failed" else "success",
          updated_count := some ((result.map (fun x => x.updated)).getD 0),
          skipped_count := some ((result.map (fun x => x.skipped)).getD 0),
          error_count := some ((result.map (fun x => x.errors)).getD 0),
          finished_at := some t1,
          duration_seconds := some (t1 - t0),
          error_message := errMsg }] := by
  refine ⟨_, rfl, rfl, rfl, rfl, rfl, rfl, rfl, rfl, rfl, rfl, ?_⟩
  exact finish_batch_job_spec st _ (st.length + 1) result errMsg t1 rfl hfresh

/-- Witness: the batch-job lifecycle theorem on an empty ledger with a
successful empty result at times 0 and 5. -/
theorem c8_batch_job_lifecycle_witness :
    ∃ rec : BatchJobRecord,
      start_batch_job [] "stockprice" (some "2025-01-06") 0 0 =
        (([] : List BatchJobRecord) ++ [rec],
          ([] : List BatchJobRecord).length + 1) ∧
      rec.id = ([] : List BatchJobRecord).length + 1 ∧ rec.status = "running" ∧
      rec.started_at = 0 ∧
      rec.updated_count = none ∧ rec.skipped_count = none ∧ rec.error_count = none ∧
      rec.finished_at = none ∧ rec.duration_seconds = none ∧ rec.error_message = none ∧
      finish_batch_job (([] : List BatchJobRecord) ++ [rec])
          (([] : List BatchJobRecord).length + 1) none none 5 =
        ([] : List BatchJobRecord) ++ [{ rec with
          status := if pyTruthyStr none then "failed" else "success",
          updated_count := some (((none : Option BulkResult).map (fun x => x.updated)).getD 0),
          skipped_count := some (((none : Option BulkResult).map (fun x => x.skipped)).getD 0),
          error_count := some (((none : Option BulkResult).map (fun x => x.errors)).getD 0),
          finished_at := some 5,
          duration_seconds := some (5 - 0),
          error_message := none }] :=
  c8_batch_job_lifecycle [] "stockprice" (some "2025-01-06") 0 0 5 none none (by simp)

/-- CLAIM C10: a symbol that is neither a registry key nor in a substring
relation with any registry name silently resolves to the default code
259960, so the single-entity collection computes the data of that company
(Krafton) for the unknown symbol. -/
theorem c10_unknown_symbol_defaults (env : ProviderEnv) (symbol : String)
    (hkey : ∀ p ∈ GAME_COMPANIES, p.1 ≠ symbol)
    (hsub : ∀ p ∈ GAME_COMPANIES,
      pyInStr symbol p.2 = false ∧ pyInStr p.2 symbol = false) :
    get_stock_code symbol = "259960" ∧
    fetch_weekly_stock_data env symbol = fetch_weekly_stock_data env "259960" ∧
    (fetch_weekly_stock_data env symbol).symbol = "259960" := by
  have hany : GAME_COMPANIES.any (fun p => p.1 == symbol) = false := by
    rw [List.any_eq_false]
    intro p hp
    simp [hkey p hp]
  have hfind : GAME_COMPANIES.find?
      (fun p => pyInStr symbol p.2 || pyInStr p.2 symbol) = none := by
    apply List.find?_eq_none.mpr
    intro p hp
    simp [(hsub p hp).1, (hsub p hp).2]
  have hcode : get_stock_code symbol = "259960" := by
    simp [get_stock_code, hany, hfind]
  have h259 : get_stock_code "259960" = "259960" := by decide
  have hname : companyInfoName "259960" symbol = companyInfoName "259960" "259960" := by
    have hf : GAME_COMPANIES.find? (fun p => p.1 == "259960") =
        some ("259960", "크래프톤") := by decide
    simp [companyInfoName, hf]
  have heq : fetch_weekly_stock_data env symbol = fetch_weekly_stock_data env "259960" := by
    simp only [fetch_weekly_stock_data, hcode, h259, hname]
  refine ⟨hcode, heq, ?_⟩
  rw [heq]
  cases hf : env.failure "259960" with
  | some m => simp [fetch_weekly_stock_data, hf, h259]
  | none =>
    by_cases hie : (env.dailyData "259960").isEmpty = true <;>
      simp [fetch_weekly_stock_data, hf, hie, h259]

/-- Witness: the default-code theorem on the unknown symbol QQQQ with
idle providers. -/
theorem c10_unknown_symbol_defaults_witness :
    get_stock_code "QQQQ" = "259960" ∧
    fetch_weekly_stock_data quietEnv "QQQQ" = fetch_weekly_stock_data quietEnv "259960" ∧
    (fetch_weekly_stock_data quietEnv "QQQQ").symbol = "259960" :=
  c10_unknown_symbol_defaults quietEnv "QQQQ" (by decide) (by decide)

/-- A registry key resolves to itself. -/
theorem get_stock_code_of_mem (code : String) (h : code ∈ gameCompanyCodes) :
    get_stock_code code = code := by
  have hany : GAME_COMPANIES.any (fun p => p.1 == code) = true := by
    rw [List.any_eq_true]
    obtain ⟨p, hp, hpc⟩ := List.mem_map.mp h
    exact ⟨p, hp, by simp [hpc]⟩
  simp [get_stock_code, hany]

/-- An empty daily series (with no injected exception) produces the fixed
error response: error message set, every numeric field None, only the
anchor dates filled. -/
theorem fetch_empty_series (env : ProviderEnv) (symbol : String)
    (hfail : env.failure (get_stock_code symbol) = none)
    (hempty : env.dailyData (get_stock_code symbol) = []) :
    fetch_weekly_stock_data env symbol =
      { symbol := get_stock_code symbol,
        companyName := companyInfoName (get_stock_code symbol) symbol,
        error := some "일별시세 데이터를 가져올 수 없습니다",
        thisFridayDate := some (formatDay (get_friday_days env.today).1),
        lastFridayDate := some (formatDay (get_friday_days env.today).2) } := by
  simp [fetch_weekly_stock_data, hfail, hempty]

/-- A loop body that never raises lets the sequential map succeed. -/
theorem exceptMapM_ok_of {α β : Type} (f : α → Except String β) :
    ∀ l : List α, (∀ a ∈ l, ∃ b, f a = .ok b) → ∃ bs, exceptMapM f l = .ok bs := by
  intro l
  induction l with
  | nil => intro _; exact ⟨[], rfl⟩
  | cons a l ih =>
    intro h
    obtain ⟨b, hb⟩ := h a (List.mem_cons_self a l)
    obtain ⟨bs, hbs⟩ := ih (fun x hx => h x (List.mem_cons_of_mem _ hx))
    exact ⟨b :: bs, by simp [exceptMapM, hb, hbs, Except.map]⟩

/-- The dedup write path never counts errors: its per-item handler only
fires on malformed dict items. -/
theorem bulk_errors_zero (st : List WeeklyRow) (items : List WeeklyItem)
    (cat : String) (weekArg : Option String) (nd : Int) :
    (bulk_upsert_weekly_data st items cat weekArg nd).1.errors = 0 := by
  simp only [bulk_upsert_weekly_data]
  exact (bulk_fold_counts cat (weekOrCurrent weekArg nd)
    (getWeekInfo (weekOrCurrent weekArg nd)).1
    (getWeekInfo (weekOrCurrent weekArg nd)).2 items st 0 0 0).2

/-- An injected exception inside the fetch body produces the except
branch response: prefixed error message, every numeric field None, only
the anchor dates filled. -/
theorem fetch_raises (env : ProviderEnv) (symbol msg : String)
    (hfail : env.failure (get_stock_code symbol) = some msg) :
    fetch_weekly_stock_data env symbol =
      { symbol := get_stock_code symbol,
        companyName := companyInfoName (get_stock_code symbol) symbol,
        error := some ("데이터 수집 실패: " ++ msg),
        thisFridayDate := some (formatDay (get_friday_days env.today).1),
        lastFridayDate := some (formatDay (get_friday_days env.today).2) } := by
  simp [fetch_weekly_stock_data, hfail]

/-- The except-branch error message is never the empty string, so it is
always truthy. -/
theorem failMsg_ne_empty (msg : String) : ("데이터 수집 실패: " ++ msg) ≠ "" := by
  intro h
  have hlen := congrArg String.length h
  rw [String.length_append] at hlen
  have h10 : (0 : Nat) < "데이터 수집 실패: ".length := by decide
  have h0 : ("" : String).length = 0 := rfl
  omega

/-- A response with a truthy error field always renders to a weekly item
(the error-text branch), so the router loop cannot raise on it. -/
theorem buildWeeklyItem_ok_of_truthy (s : WeeklyStockPriceResponse)
    (h : pyTruthyStr s.error = true) : ∃ b, buildWeeklyItem s = .ok b := by
  cases hc : buildWeeklyItem s with
  | ok b => exact ⟨b, rfl⟩
  | error e =>
    exfalso
    simp [buildWeeklyItem, h, Except.map] at hc

/-- COUNTEREXAMPLE to CLAIM C7 as stated: in a batch where the provider
returns an empty series for 035420 and the computation for 035720
raises, both entities produce error facts, yet the returned batch result
counts them nowhere — errors is 0 (it counts store-write failures) and
stockprice_stats.error_count is 0, because the controller replaced the
collected list by the successfully bulk-saved error-free rows. -/
theorem c7_counterexample :
    (fetch_weekly_stock_data probeEnv "035420").error.isSome = true ∧
    (fetch_weekly_stock_data probeEnv "035720").error.isSome = true ∧
    ((collect_stockprice_for_n8n probeEnv true (some "2025-01-06") [] [] [] 0 5).1.toOption.map
        (fun r => (r.errors, r.stockprice_stats.error_count,
          r.stockprice_stats.successful_count))) = some (0, 0, 55) :=
  ⟨by decide, by decide, by decide⟩

/-- CLAIM C7, amended: an entity whose daily series comes back empty, or
whose computation raises, yields a fact with the error set and all
numeric fields None instead of an exception crossing the task boundary,
and the batch completes; but the returned batch result counts such
entities under stockprice_stats.error_count only when the collected list
survives to the counting step (here: every entity errored, so nothing
was bulk-saved), while the top-level errors field counts store-write
failures and stays 0; when the bulk save of error-free facts succeeds,
errored entities are dropped from the result altogether. -/
theorem c7_error_fact_amended :
    (∀ (env : ProviderEnv) (symbol : String),
        env.failure (get_stock_code symbol) = none →
        env.dailyData (get_stock_code symbol) = [] →
        (fetch_weekly_stock_data env symbol).error =
            some "일별시세 데이터를 가져올 수 없습니다" ∧
        (fetch_weekly_stock_data env symbol).marketCap = none ∧
        (fetch_weekly_stock_data env symbol).today = none ∧
        (fetch_weekly_stock_data env symbol).lastWeek = none ∧
        (fetch_weekly_stock_data env symbol).changeRate = none ∧
        (fetch_weekly_stock_data env symbol).weekHigh = none ∧
        (fetch_weekly_stock_data env symbol).weekLow = none) ∧
    (∀ (env : ProviderEnv) (symbol msg : String),
        env.failure (get_stock_code symbol) = some msg →
        (fetch_weekly_stock_data env symbol).error =
            some ("데이터 수집 실패: " ++ msg) ∧
        (fetch_weekly_stock_data env symbol).marketCap = none ∧
        (fetch_weekly_stock_data env symbol).today = none ∧
        (fetch_weekly_stock_data env symbol).lastWeek = none ∧
        (fetch_weekly_stock_data env symbol).changeRate = none ∧
        (fetch_weekly_stock_data env symbol).weekHigh = none ∧
        (fetch_weekly_stock_data env symbol).weekLow = none) ∧
    (∀ (env : ProviderEnv) (bulkOk : Bool) (w : String) (weeklyDb : List WeeklyRow)
        (ledger : List BatchJobRecord) (stockDb : List StockRow) (t0 t1 : Int),
        (∀ code ∈ gameCompanyCodes, env.failure code = none → env.dailyData code = []) →
        ((collect_stockprice_for_n8n env bulkOk (some w) weeklyDb ledger stockDb
            t0 t1).1.toOption.map
          (fun r => (r.errors, r.stockprice_stats.error_count,
            r.stockprice_stats.successful_count))) =
          some (0, gameCompanyCodes.length, 0)) := by
  refine ⟨?_, ?_, ?_⟩
  · intro env symbol hfail hempty
    rw [fetch_empty_series env symbol hfail hempty]
    exact ⟨rfl, rfl, rfl, rfl, rfl, rfl, rfl⟩
  · intro env symbol msg hfail
    rw [fetch_raises env symbol msg hfail]
    exact ⟨rfl, rfl, rfl, rfl, rfl, rfl, rfl⟩
  · intro env bulkOk w weeklyDb ledger stockDb t0 t1 hall
    have htruthy : ∀ code ∈ gameCompanyCodes,
        pyTruthyStr (fetch_weekly_stock_data env code).error = true := by
      intro code hc
      have hgc : get_stock_code code = code := get_stock_code_of_mem code hc
      cases hf : env.failure code with
      | some m =>
        rw [fetch_raises env code m (by rw [hgc]; exact hf)]
        have hne := failMsg_ne_empty m
        simp [pyTruthyStr, hne]
      | none =>
        rw [fetch_empty_series env code (by rw [hgc]; exact hf)
          (by rw [hgc]; exact hall code hc hf)]
        rfl
    have hfilterok : (gameCompanyCodes.map (fetch_weekly_stock_data env)).filter
        (fun s => !pyTruthyStr s.error) = [] := by
      rw [List.filter_eq_nil_iff]
      intro s hs
      obtain ⟨c, hc, rfl⟩ := List.mem_map.mp hs
      simp [htruthy c hc]
    have hfiltererr : (gameCompanyCodes.map (fetch_weekly_stock_data env)).filter
        (fun s => pyTruthyStr s.error) =
        gameCompanyCodes.map (fetch_weekly_stock_data env) := by
      rw [List.filter_eq_self]
      intro s hs
      obtain ⟨c, hc, rfl⟩ := List.mem_map.mp hs
      exact htruthy c hc
    have hne : (gameCompanyCodes.map (fetch_weekly_stock_data env)).isEmpty = false := rfl
    have hget : get_all_weekly_stock_data env bulkOk stockDb =
        (gameCompanyCodes.map (fetch_weekly_stock_data env), stockDb) := by
      simp only [get_all_weekly_stock_data, fetch_all_weekly_stock_data, hfilterok,
        hne, Bool.false_eq_true, if_false, List.map_nil, List.isEmpty_nil, if_true]
    have hok : ∀ s ∈ gameCompanyCodes.map (fetch_weekly_stock_data env),
        ∃ b, buildWeeklyItem s = .ok b := by
      intro s hs
      obtain ⟨c, hc, rfl⟩ := List.mem_map.mp hs
      exact buildWeeklyItem_ok_of_truthy _ (htruthy c hc)
    obtain ⟨items, hitems⟩ := exceptMapM_ok_of buildWeeklyItem _ hok
    simp only [collect_stockprice_for_n8n, hget, hitems, Except.toOption, Option.map,
      hfiltererr, hfilterok]
    rw [bulk_errors_zero weeklyDb items "stockprice"
      (some (weekOrCurrent (some w) env.today)) env.today]
    simp [List.length_map]

/-- Witness: the amended error-fact theorem on a mixed environment — the
empty-series error fact for 259960, the injected-exception error fact
for 035720, and the all-error batch counts. -/
theorem c7_error_fact_amended_witness :
    (fetch_weekly_stock_data raisingEnv "259960").error =
        some "일별시세 데이터를 가져올 수 없습니다" ∧
    (fetch_weekly_stock_data raisingEnv "035720").error =
        some ("데이터 수집 실패: " ++ "timeout") ∧
    ((collect_stockprice_for_n8n raisingEnv true (some "2025-01-06") [] [] [] 0 5).1.toOption.map
        (fun r => (r.errors, r.stockprice_stats.error_count,
          r.stockprice_stats.successful_count))) =
      some (0, gameCompanyCodes.length, 0) :=
  ⟨(c7_error_fact_amended.1 raisingEnv "259960" (by decide) (by decide)).1,
   (c7_error_fact_amended.2.1 raisingEnv "035720" "timeout" (by decide)).1,
   c7_error_fact_amended.2.2 raisingEnv true "2025-01-06" [] [] [] 0 5 (by decide)⟩
